import Mathlib

/-!
Shallow embedding of the `patchwork` repository (files `patchwork/_main.py`
and `patchwork/_sample.py`), with theorems checking the natural-language
specification against the code.

Modelling conventions:
* A label cell is `Option Bool`: `none` is NumPy `NaN` (unset), `some false`
  is label `0`, `some true` is label `1`.
* NumPy float scalars that the code compares and sorts (probabilities,
  entropies, weights) are modelled as `ℚ`; every IEEE double is a rational,
  so quantifying over `ℚ` covers every float the code can produce.
* Randomness is passed in explicitly: each random draw of the Python code
  becomes a parameter of the Lean function, and theorems quantify over all
  draws satisfying the guarantees of the NumPy primitive that produced them
  (e.g. `np.random.choice(..., replace=False)` yields pairwise-distinct
  members of its pool).
-/

namespace Patchwork

/-- Source: `EPSILON = 1e-5` from `_main.py`. -/
def EPSILON : ℚ := 1 / 100000

/-- The label vector `self.labels`: one `Option Bool` per item. -/
abbrev Labels := List (Option Bool)

/-- Source: `(self.labels == v).sum()` for `v ∈ {0, 1}` (NaN compares unequal). -/
def countLabel (labels : Labels) (b : Bool) : ℕ :=
  (labels.filter (fun v => v == some b)).length

/-- Source: `self.unlabeled_indices = np.arange(self.N)[np.isnan(self.labels)]`
(`_update_unlabeled`, `_main.py` line 41). -/
def unlabeledIndices (labels : Labels) : List ℕ :=
  (List.range labels.length).filter (fun i => labels.getD i none == none)

/-- NumPy fancy assignment `labels[idxs] = v`: set every listed position. -/
def setLabels (ls : Labels) (idxs : List ℕ) (v : Bool) : Labels :=
  idxs.foldl (fun acc i => acc.set i (some v)) ls

/-- Source: `np.arange(N)[self.labels == 1]` (`_training_set`, line 88). -/
def posIndices (labels : Labels) : List ℕ :=
  (List.range labels.length).filter (fun i => labels.getD i none == some true)

/-- Source: `np.arange(N)[self.labels == 0]` (`_training_set`, line 89). -/
def negIndices (labels : Labels) : List ℕ :=
  (List.range labels.length).filter (fun i => labels.getD i none == some false)

/-- Source: `class_imbalance = max(int(len(neg_indices)/len(pos_indices)), 1)`
(`_training_set`, line 90).  Python `int` of a nonnegative float division
truncates, i.e. floor; with zero positives Python would raise
`ZeroDivisionError`, so theorems assume at least one positive. -/
def classImbalance (labels : Labels) : ℕ :=
  max ((negIndices labels).length / (posIndices labels).length) 1

/-- The index multiset of rows handed to `model.fit` by `_training_set`
(lines 85-93).  With `stratify` the positive index list is concatenated
`class_imbalance` times followed by the negatives once; without it the
boolean mask `~isnan(labels)` selects each labeled row once. -/
def trainingIndices (stratify : Bool) (labels : Labels) : List ℕ :=
  if stratify then
    (List.replicate (classImbalance labels) (posIndices labels)).flatten
      ++ negIndices labels
  else
    (List.range labels.length).filter (fun i => !(labels.getD i none == none))

/-- The concrete label state of the claim scenario: 3 positive rows then
100 negative rows. -/
def labelsScenario : Labels :=
  List.replicate 3 (some true) ++ List.replicate 100 (some false)

lemma posIndices_nodup (labels : Labels) : (posIndices labels).Nodup :=
  (List.nodup_range _).filter _

lemma negIndices_nodup (labels : Labels) : (negIndices labels).Nodup :=
  (List.nodup_range _).filter _

lemma pos_neg_disjoint (labels : Labels) (i : ℕ) (hp : i ∈ posIndices labels) :
    i ∉ negIndices labels := by
  intro hn
  have hp' := List.of_mem_filter hp
  have hn' := List.of_mem_filter hn
  simp only [beq_iff_eq] at hp' hn'
  rw [hp'] at hn'
  cases hn'

lemma count_flatten_replicate (k : ℕ) (l : List ℕ) (i : ℕ) :
    ((List.replicate k l).flatten).count i = k * l.count i := by
  induction k with
  | zero => simp
  | succ n ih =>
      simp [List.replicate_succ, ih, Nat.succ_mul, Nat.add_comm]

/-- The stratified training-set builder duplicates the positive index list
`max(floor(neg/pos), 1)` times (not `ceil`) and appends the negatives once:
its total size is `class_imbalance * num_pos + num_neg`, every positive
index occurs exactly `class_imbalance` times and every negative index
exactly once. -/
theorem trainingIndices_floor_imbalance (labels : Labels)
    (hp : 1 ≤ (posIndices labels).length) :
    (trainingIndices true labels).length =
        classImbalance labels * (posIndices labels).length
          + (negIndices labels).length ∧
    (∀ i ∈ posIndices labels,
        (trainingIndices true labels).count i = classImbalance labels) ∧
    (∀ i ∈ negIndices labels,
        (trainingIndices true labels).count i = 1) := by
  refine ⟨?_, ?_, ?_⟩
  · simp [trainingIndices, List.length_flatten, Nat.mul_comm]
  · intro i hi
    have hcount : (posIndices labels).count i = 1 :=
      List.count_eq_one_of_mem (posIndices_nodup labels) hi
    have hnot : i ∉ negIndices labels := pos_neg_disjoint labels i hi
    simp [trainingIndices, List.count_append, count_flatten_replicate,
      hcount, List.count_eq_zero_of_not_mem hnot]
  · intro i hi
    have hcount : (negIndices labels).count i = 1 :=
      List.count_eq_one_of_mem (negIndices_nodup labels) hi
    have hnot : i ∉ posIndices labels := by
      intro hp'
      exact pos_neg_disjoint labels i hp' hi
    simp [trainingIndices, List.count_append, count_flatten_replicate,
      hcount, List.count_eq_zero_of_not_mem hnot]

/-- Witness for `trainingIndices_floor_imbalance` at the 3-positive /
100-negative scenario: positives are repeated `33` times each and negatives
once, for a total of `33*3 + 100 = 199` rows. -/
theorem trainingIndices_floor_imbalance_witness :
    1 ≤ (posIndices labelsScenario).length ∧
    (trainingIndices true labelsScenario).length =
        classImbalance labelsScenario * (posIndices labelsScenario).length
          + (negIndices labelsScenario).length ∧
    (∀ i ∈ posIndices labelsScenario,
        (trainingIndices true labelsScenario).count i
          = classImbalance labelsScenario) ∧
    (∀ i ∈ negIndices labelsScenario,
        (trainingIndices true labelsScenario).count i = 1) :=
  ⟨by decide, trainingIndices_floor_imbalance labelsScenario (by decide)⟩

set_option maxRecDepth 10000 in
/-- Counterexample to the claim as stated: with 3 positive and 100 negative
labels the code builds a training set of `100 + 33*3 = 199` rows, because
`class_imbalance = int(100/3) = 33` (floor), not `ceil(100/3) = 34`; the
claimed size `100 + 34*3 = 202` is wrong. -/
theorem trainingIndices_ceil_counterexample :
    (trainingIndices true labelsScenario).length = 199 ∧
    (100 + 34 * 3 : ℕ) = 202 ∧
    ¬ (trainingIndices true labelsScenario).length = 100 + 34 * 3 := by
  decide

/-!
## Uncertainty sampler (`uncert_sample`, `_main.py` lines 95-119)

The entropy vector `H` computed on lines 98-103 is a vector of floats; it
enters the rest of the function only through comparisons in `argsort`, so it
is modelled as an arbitrary score function `H : ℕ → ℚ` (every float is a
rational).  The random draws are parameters: `r` stands for
`np.random.binomial(16, epsilon)`, `randInd` for the `random_sample()` draw
and `order` for the shuffling permutation of `np.arange(M)`.
-/

/-- Source: `H[self.unlabeled_indices].argsort()[::-1]` mapped back through
`self.unlabeled_indices`: the unlabeled indices sorted by descending score. -/
def topSorted (H : ℕ → ℚ) (unl : List ℕ) : List ℕ :=
  unl.insertionSort (fun i j => H j ≤ H i)

/-- Source: `uncert_ind = self.unlabeled_indices[highest_entropy[:self.M]]`
(line 106). -/
def uncertTop (H : ℕ → ℚ) (unl : List ℕ) (M : ℕ) : List ℕ :=
  (topSorted H unl).take M

/-- Source: `uncert_ind[:-num_random]` (line 112), the kept exploit portion. -/
def keptPart (H : ℕ → ℚ) (unl : List ℕ) (M r : ℕ) : List ℕ :=
  (uncertTop H unl M).take (M - r)

/-- Source: `randpicks = np.array([x for x in rand_ind if x not in uncert_ind[:-num_random]])`
(line 112). -/
def randpicksOf (H : ℕ → ℚ) (unl : List ℕ) (M r : ℕ) (randInd : List ℕ) :
    List ℕ :=
  randInd.filter (fun x => !((keptPart H unl M r).contains x))

/-- Source: `uncert_sample` (lines 95-119): returns the batch of indices and the
parallel weight vector.  `weights[-num_random:] /= epsilon` turns the last
`r` weights from `1` into `1/epsilon`; the final shuffle indexes both
arrays by the permutation `order`. -/
def uncertSample (H : ℕ → ℚ) (unl : List ℕ) (M : ℕ) (eps : ℚ) (r : ℕ)
    (randInd order : List ℕ) : List ℕ × List ℚ :=
  if 0 < eps ∧ 0 < r then
    let newInd := keptPart H unl M r ++ (randpicksOf H unl M r randInd).take r
    let newW := List.replicate (M - r) (1 : ℚ) ++ List.replicate r (1 / eps)
    (order.map (fun j => newInd.getD j 0), order.map (fun j => newW.getD j 1))
  else
    (uncertTop H unl M, List.replicate M 1)

lemma topSorted_perm (H : ℕ → ℚ) (unl : List ℕ) :
    (topSorted H unl).Perm unl :=
  List.perm_insertionSort _ unl

lemma topSorted_length (H : ℕ → ℚ) (unl : List ℕ) :
    (topSorted H unl).length = unl.length :=
  (topSorted_perm H unl).length_eq

lemma topSorted_sorted (H : ℕ → ℚ) (unl : List ℕ) :
    (topSorted H unl).Sorted (fun i j => H j ≤ H i) := by
  haveI : IsTotal ℕ (fun i j => H j ≤ H i) := ⟨fun i j => le_total (H j) (H i)⟩
  haveI : IsTrans ℕ (fun i j => H j ≤ H i) :=
    ⟨fun _ _ _ h h' => le_trans h' h⟩
  exact List.sorted_insertionSort _ unl

lemma uncertTop_length (H : ℕ → ℚ) (unl : List ℕ) (M : ℕ)
    (hM : M ≤ unl.length) : (uncertTop H unl M).length = M := by
  simp [uncertTop, topSorted_length, hM]

lemma uncertTop_nodup (H : ℕ → ℚ) (unl : List ℕ) (M : ℕ)
    (hnd : unl.Nodup) : (uncertTop H unl M).Nodup :=
  ((topSorted_perm H unl).nodup_iff.mpr hnd).sublist (List.take_sublist _ _)

lemma uncertTop_subset (H : ℕ → ℚ) (unl : List ℕ) (M : ℕ) :
    ∀ i ∈ uncertTop H unl M, i ∈ unl := fun i hi =>
  (topSorted_perm H unl).mem_iff.mp (List.mem_of_mem_take hi)

/-- Every element kept in the top-`M` portion scores at least as high as
every unlabeled element left out of it. -/
lemma uncertTop_maximal (H : ℕ → ℚ) (unl : List ℕ) (M : ℕ) :
    ∀ i ∈ uncertTop H unl M, ∀ j ∈ unl, j ∉ uncertTop H unl M →
      H j ≤ H i := by
  intro i hi j hj hj'
  have hjs : j ∈ topSorted H unl := (topSorted_perm H unl).mem_iff.mpr hj
  have hjdrop : j ∈ (topSorted H unl).drop M := by
    rcases (List.mem_append.mp
        ((List.take_append_drop M (topSorted H unl)) ▸ hjs)) with h | h
    · exact absurd h hj'
    · exact h
  have hpw := (topSorted_sorted H unl)
  rw [List.Sorted, ← List.take_append_drop M (topSorted H unl),
    List.pairwise_append] at hpw
  exact hpw.2.2 i hi j hjdrop

lemma map_getD_perm_of_perm_range (l order : List ℕ) (d : ℕ)
    (hord : order.Perm (List.range l.length)) :
    (order.map (fun j => l.getD j d)).Perm l := by
  have h1 : (order.map (fun j => l.getD j d)).Perm
      ((List.range l.length).map (fun j => l.getD j d)) := hord.map _
  have h2 : (List.range l.length).map (fun j => l.getD j d) = l := by
    apply List.ext_getElem
    · simp
    · intro i h1' h2'
      simp only [List.getElem_map, List.getElem_range]
      exact List.getD_eq_getElem l d h2'
  rw [h2] at h1
  exact h1

lemma keptPart_length (H : ℕ → ℚ) (unl : List ℕ) (M r : ℕ)
    (hM : M ≤ unl.length) (hr : r ≤ M) :
    (keptPart H unl M r).length = M - r := by
  simp only [keptPart, List.length_take, uncertTop_length H unl M hM]
  omega

lemma randpicks_length_ge (H : ℕ → ℚ) (unl : List ℕ) (M r : ℕ)
    (randInd : List ℕ) (hM : M ≤ unl.length) (hr : r ≤ M)
    (hnd : randInd.Nodup) (hlen : randInd.length = M) :
    r ≤ (randpicksOf H unl M r randInd).length := by
  have hsplit :
      randInd.length
        = (randInd.filter (fun x => (keptPart H unl M r).contains x)).length
          + (randpicksOf H unl M r randInd).length := by
    simpa [randpicksOf] using
      (@List.length_eq_length_filter_add ℕ randInd
        (fun x => (keptPart H unl M r).contains x))
  have hin : (randInd.filter
      (fun x => (keptPart H unl M r).contains x)).length
        ≤ (keptPart H unl M r).length := by
    apply List.Subperm.length_le
    apply List.subperm_of_subset (hnd.filter _)
    intro x hx
    have := List.of_mem_filter hx
    exact List.mem_of_elem_eq_true this
  have hk := keptPart_length H unl M r hM hr
  omega

/-- The core structural guarantee of `uncert_sample`, covering both the
pure-exploit branch and the epsilon-greedy branch: the returned batch has
exactly `M` pairwise-distinct indices, all unlabeled. -/
lemma uncertSample_spec (H : ℕ → ℚ) (unl : List ℕ) (M : ℕ) (eps : ℚ)
    (r : ℕ) (randInd order : List ℕ)
    (hnd : unl.Nodup) (hM : M ≤ unl.length) (hr : r ≤ M)
    (hrnd : randInd.Nodup) (hrlen : randInd.length = M)
    (hrsub : ∀ x ∈ randInd, x ∈ unl)
    (hord : order.Perm (List.range M)) :
    (uncertSample H unl M eps r randInd order).1.length = M ∧
    (uncertSample H unl M eps r randInd order).1.Nodup ∧
    (∀ i ∈ (uncertSample H unl M eps r randInd order).1, i ∈ unl) := by
  by_cases hc : 0 < eps ∧ 0 < r
  · have hkl := keptPart_length H unl M r hM hr
    have hrpl := randpicks_length_ge H unl M r randInd hM hr hrnd hrlen
    have hnewlen :
        (keptPart H unl M r ++ (randpicksOf H unl M r randInd).take r).length
          = M := by
      simp only [List.length_append, List.length_take, hkl]
      omega
    have hknd : (keptPart H unl M r).Nodup :=
      (uncertTop_nodup H unl M hnd).sublist (List.take_sublist _ _)
    have hrpnd : ((randpicksOf H unl M r randInd).take r).Nodup :=
      (hrnd.filter _).sublist (List.take_sublist _ _)
    have hdisj : ∀ x ∈ keptPart H unl M r,
        x ∉ (randpicksOf H unl M r randInd).take r := by
      intro x hx hmem
      have hmem' := List.mem_of_mem_take hmem
      have := List.of_mem_filter hmem'
      simp only [Bool.not_eq_true', ← Bool.not_eq_true] at this
      exact this (List.elem_eq_true_of_mem hx)
    have hnewnd :
        (keptPart H unl M r ++ (randpicksOf H unl M r randInd).take r).Nodup := by
      rw [List.nodup_append]
      exact ⟨hknd, hrpnd, fun x hx hy => hdisj x hx hy⟩
    have hnewsub : ∀ x ∈ keptPart H unl M r
        ++ (randpicksOf H unl M r randInd).take r, x ∈ unl := by
      intro x hx
      rcases List.mem_append.mp hx with h | h
      · exact uncertTop_subset H unl M x (List.mem_of_mem_take h)
      · exact hrsub x (List.mem_of_mem_filter (List.mem_of_mem_take h))
    have hperm := map_getD_perm_of_perm_range
      (keptPart H unl M r ++ (randpicksOf H unl M r randInd).take r)
      order 0 (by rw [hnewlen]; exact hord)
    constructor
    · simp only [uncertSample, if_pos hc]
      rw [hperm.length_eq, hnewlen]
    constructor
    · simp only [uncertSample, if_pos hc]
      exact hperm.nodup_iff.mpr hnewnd
    · simp only [uncertSample, if_pos hc]
      intro i hi
      exact hnewsub i (hperm.mem_iff.mp hi)
  · refine ⟨?_, ?_, ?_⟩ <;> simp only [uncertSample, if_neg hc]
    · exact uncertTop_length H unl M hM
    · exact uncertTop_nodup H unl M hnd
    · exact uncertTop_subset H unl M

/-- With `epsilon = 0` the epsilon-greedy branch is skipped: the sampler
returns the `M` unlabeled indices of highest score (every returned index
scores at least as high as every unlabeled index not returned), pairwise
distinct, and the weight vector is all ones. -/
theorem uncertSample_greedy_top (H : ℕ → ℚ) (unl : List ℕ) (M r : ℕ)
    (randInd order : List ℕ) (hnd : unl.Nodup) (hM : M ≤ unl.length) :
    (uncertSample H unl M 0 r randInd order).1.length = M ∧
    (uncertSample H unl M 0 r randInd order).1.Nodup ∧
    (∀ i ∈ (uncertSample H unl M 0 r randInd order).1, i ∈ unl) ∧
    (∀ i ∈ (uncertSample H unl M 0 r randInd order).1,
      ∀ j ∈ unl, j ∉ (uncertSample H unl M 0 r randInd order).1 → H j ≤ H i) ∧
    (uncertSample H unl M 0 r randInd order).2 = List.replicate M 1 := by
  have hbr : uncertSample H unl M 0 r randInd order
      = (uncertTop H unl M, List.replicate M 1) := by
    simp [uncertSample]
  rw [hbr]
  exact ⟨uncertTop_length H unl M hM, uncertTop_nodup H unl M hnd,
    uncertTop_subset H unl M, uncertTop_maximal H unl M, rfl⟩

/-- Witness for `uncertSample_greedy_top`: five unlabeled indices with
scores `0,3,1,2,4`, batch size `3` — the sampler picks `{4, 1, 3}`. -/
theorem uncertSample_greedy_top_witness :
    ([0, 1, 2, 3, 4] : List ℕ).Nodup ∧ 3 ≤ ([0, 1, 2, 3, 4] : List ℕ).length ∧
    ((uncertSample (fun i => (i : ℚ)) [0, 1, 2, 3, 4] 3 0 0 [] []).1.length = 3 ∧
     (uncertSample (fun i => (i : ℚ)) [0, 1, 2, 3, 4] 3 0 0 [] []).1.Nodup ∧
     (∀ i ∈ (uncertSample (fun i => (i : ℚ)) [0, 1, 2, 3, 4] 3 0 0 [] []).1,
        i ∈ ([0, 1, 2, 3, 4] : List ℕ)) ∧
     (∀ i ∈ (uncertSample (fun i => (i : ℚ)) [0, 1, 2, 3, 4] 3 0 0 [] []).1,
        ∀ j ∈ ([0, 1, 2, 3, 4] : List ℕ),
          j ∉ (uncertSample (fun i => (i : ℚ)) [0, 1, 2, 3, 4] 3 0 0 [] []).1 →
            (j : ℚ) ≤ (i : ℚ)) ∧
     (uncertSample (fun i => (i : ℚ)) [0, 1, 2, 3, 4] 3 0 0 [] []).2
        = List.replicate 3 1) :=
  ⟨by decide, by decide,
    uncertSample_greedy_top (fun i => (i : ℚ)) [0, 1, 2, 3, 4] 3 0 [] []
      (by decide) (by decide)⟩

/-- For every exploration rate `eps > 0` the epsilon-greedy sampler still
returns exactly `M` pairwise-distinct unlabeled indices: after filtering the
`M`-element distinct random draw against the kept top-`(M-r)` portion, at
least `r` candidates always remain to fill the batch. -/
theorem uncertSample_eps_greedy_valid (H : ℕ → ℚ) (unl : List ℕ) (M : ℕ)
    (eps : ℚ) (r : ℕ) (randInd order : List ℕ)
    (hnd : unl.Nodup) (hM : M ≤ unl.length) (heps : 0 < eps) (hr : r ≤ M)
    (hrnd : randInd.Nodup) (hrlen : randInd.length = M)
    (hrsub : ∀ x ∈ randInd, x ∈ unl)
    (hord : order.Perm (List.range M)) :
    r ≤ (randpicksOf H unl M r randInd).length ∧
    (uncertSample H unl M eps r randInd order).1.length = M ∧
    (uncertSample H unl M eps r randInd order).1.Nodup ∧
    (∀ i ∈ (uncertSample H unl M eps r randInd order).1, i ∈ unl) :=
  ⟨randpicks_length_ge H unl M r randInd hM hr hrnd hrlen,
    uncertSample_spec H unl M eps r randInd order hnd hM hr hrnd hrlen
      hrsub hord⟩

/-- Witness for `uncertSample_eps_greedy_valid`: five unlabeled indices,
`M = 3`, `eps = 1/2`, `r = 2` random slots, a concrete distinct random draw
and shuffle permutation. -/
theorem uncertSample_eps_greedy_valid_witness :
    ([5, 6, 7, 8, 9] : List ℕ).Nodup ∧ 3 ≤ ([5, 6, 7, 8, 9] : List ℕ).length ∧
    (0 : ℚ) < 1/2 ∧ 2 ≤ 3 ∧ ([7, 5, 9] : List ℕ).Nodup ∧
    ([7, 5, 9] : List ℕ).length = 3 ∧
    (∀ x ∈ ([7, 5, 9] : List ℕ), x ∈ ([5, 6, 7, 8, 9] : List ℕ)) ∧
    ([2, 0, 1] : List ℕ).Perm (List.range 3) ∧
    (2 ≤ (randpicksOf (fun i => (i : ℚ)) [5, 6, 7, 8, 9] 3 2 [7, 5, 9]).length ∧
     (uncertSample (fun i => (i : ℚ)) [5, 6, 7, 8, 9] 3 (1/2) 2
        [7, 5, 9] [2, 0, 1]).1.length = 3 ∧
     (uncertSample (fun i => (i : ℚ)) [5, 6, 7, 8, 9] 3 (1/2) 2
        [7, 5, 9] [2, 0, 1]).1.Nodup ∧
     (∀ i ∈ (uncertSample (fun i => (i : ℚ)) [5, 6, 7, 8, 9] 3 (1/2) 2
        [7, 5, 9] [2, 0, 1]).1, i ∈ ([5, 6, 7, 8, 9] : List ℕ))) :=
  ⟨by decide, by decide, by norm_num, by decide, by decide, by decide,
    by decide, by decide,
    uncertSample_eps_greedy_valid (fun i => (i : ℚ)) [5, 6, 7, 8, 9] 3
      (1/2) 2 [7, 5, 9] [2, 0, 1] (by decide) (by decide) (by norm_num)
      (by decide) (by decide) (by decide) (by decide) (by decide)⟩

/-!
## Probability clamping and binary entropy (`uncert_sample`, lines 98-103)
-/

/-- Source: `predictions[predictions == 0] = EPSILON; predictions[predictions == 1]
= 1-EPSILON` (lines 99-100), as the per-entry map it applies: only the exact
values `0` and `1` are replaced; every other value passes through. -/
def clampProb (p : ℚ) : ℚ :=
  if p = 0 then EPSILON else if p = 1 then 1 - EPSILON else p

/-- Source: `H = -predictions*np.log2(predictions) - (1-predictions)*np.log2(1-predictions)`
(lines 102-103), over the reals. -/
noncomputable def binaryEntropy (p : ℝ) : ℝ :=
  -(p * Real.logb 2 p) - (1 - p) * Real.logb 2 (1 - p)

lemma binaryEntropy_pos {x : ℝ} (hx : 0 < x) (hx1 : x < 1) :
    0 < binaryEntropy x := by
  have hl1 : Real.logb 2 x < 0 := Real.logb_neg one_lt_two hx hx1
  have hl2 : Real.logb 2 (1 - x) < 0 :=
    Real.logb_neg one_lt_two (by linarith) (by linarith)
  have h1 : 0 < x * (-Real.logb 2 x) := mul_pos hx (neg_pos.mpr hl1)
  have h2 : 0 < (1 - x) * (-Real.logb 2 (1 - x)) :=
    mul_pos (by linarith) (neg_pos.mpr hl2)
  unfold binaryEntropy
  nlinarith

/-- The replacement of the exact values `0` and `1` keeps every probability
in `[0, 1]` strictly inside `(0, 1)`, so the binary entropy computed from it
is a well-defined, strictly positive real — in particular for the inputs
`0` and `1` themselves, and no `log(0)` (hence no NaN) can arise. -/
theorem clampProb_entropy_defined (p : ℚ) (h0 : 0 ≤ p) (h1 : p ≤ 1) :
    0 < clampProb p ∧ clampProb p < 1 ∧
    0 < binaryEntropy ((clampProb p : ℚ) : ℝ) := by
  have hio : 0 < clampProb p ∧ clampProb p < 1 := by
    unfold clampProb
    by_cases hz : p = 0
    · rw [if_pos hz]
      constructor <;> norm_num [EPSILON]
    · rw [if_neg hz]
      by_cases ho : p = 1
      · rw [if_pos ho]
        constructor <;> norm_num [EPSILON]
      · rw [if_neg ho]
        exact ⟨lt_of_le_of_ne h0 (Ne.symm hz), lt_of_le_of_ne h1 ho⟩
  refine ⟨hio.1, hio.2, binaryEntropy_pos ?_ ?_⟩
  · exact_mod_cast hio.1
  · exact_mod_cast hio.2

/-- Witness for `clampProb_entropy_defined` at `p = 0`: the replaced value
is strictly inside `(0, 1)` and its entropy is positive. -/
theorem clampProb_entropy_defined_witness :
    (0 : ℚ) ≤ 0 ∧ (0 : ℚ) ≤ 1 ∧
    (0 < clampProb 0 ∧ clampProb 0 < 1 ∧
      0 < binaryEntropy ((clampProb 0 : ℚ) : ℝ)) :=
  ⟨le_refl 0, by norm_num, clampProb_entropy_defined 0 (le_refl 0) (by norm_num)⟩

/-- Counterexample to the claim as stated: the code does NOT clamp every
probability into the open interval `(1e-5, 1-1e-5)` — it only replaces the
exact values `0` and `1`.  The probability `1e-7` passes through unchanged
and lies below `1e-5`, outside the claimed interval. -/
theorem clampProb_interval_counterexample :
    clampProb (1 / 10000000) = 1 / 10000000 ∧
    ¬ (EPSILON < clampProb (1 / 10000000)) := by
  constructor
  · norm_num [clampProb]
  · norm_num [clampProb, EPSILON]

/-!
## Active-learning controller (`iterate`, `_main.py` lines 122-151)

`iterate` is modelled as a pure function on an explicit state.  Its random
draws are parameters: `randSample` is the `random_sample()` draw of the
RandomPick branch, and `r`, `randInd`, `order` feed `uncert_sample` in the
ModelUpdate branch.  Label collection runs in ground-truth mode (line 144):
`groundtruth` maps each item index to its true label.  The `assert
len(self.unlabeled_indices) >= 16` on line 123 becomes the `none` result.
-/

/-- The label vector and sample-weight vector owned by a `PatchWork`
controller (`self.labels`, `self._sample_weights`). -/
structure PWState where
  labels : Labels
  sampleWeights : List ℚ
deriving DecidableEq

/-- Which branch of the sufficiency check an iteration takes
(lines 125-133). -/
inductive Branch
  | randomPick
  | modelUpdate
deriving DecidableEq

/-- NumPy fancy assignment `self._sample_weights[sample] = weights`
(line 134): positionwise writes of the paired values. -/
def setWeights (ws : List ℚ) (idxs : List ℕ) (newW : List ℚ) : List ℚ :=
  (idxs.zip newW).foldl (fun acc iw => acc.set iw.1 iw.2) ws

/-- The sufficiency check of lines 125-133: when either class has fewer
than `min_count` labels the batch is the `random_sample()` draw and the
weight vector is untouched; otherwise the model is retrained and
`uncert_sample` picks the batch, its weights written into
`self._sample_weights[sample]`. -/
def pickOf (minCount M : ℕ) (eps : ℚ) (H : ℕ → ℚ) (r : ℕ)
    (randInd order randSample : List ℕ) (s : PWState) :
    Branch × List ℕ × List ℚ :=
  if countLabel s.labels false < minCount
      ∨ countLabel s.labels true < minCount then
    (Branch.randomPick, randSample, s.sampleWeights)
  else
    (Branch.modelUpdate,
      (uncertSample H (unlabeledIndices s.labels) M eps r randInd order).1,
      setWeights s.sampleWeights
        (uncertSample H (unlabeledIndices s.labels) M eps r randInd order).1
        (uncertSample H (unlabeledIndices s.labels) M eps r randInd order).2)

/-- One controller iteration (`iterate`, lines 122-151): fail when fewer
than `M` unlabeled items remain; otherwise pick the batch by the
sufficiency check, set all drawn labels to `0`, then overwrite the
ground-truth positives to `1`. -/
def iterate (minCount M : ℕ) (eps : ℚ) (H : ℕ → ℚ) (r : ℕ)
    (randInd order randSample : List ℕ) (groundtruth : ℕ → Bool)
    (s : PWState) : Option (Branch × PWState) :=
  if (unlabeledIndices s.labels).length < M then none
  else
    some ((pickOf minCount M eps H r randInd order randSample s).1,
      ⟨setLabels
          (setLabels s.labels
            (pickOf minCount M eps H r randInd order randSample s).2.1 false)
          ((pickOf minCount M eps H r randInd order randSample s).2.1.filter
            groundtruth) true,
        (pickOf minCount M eps H r randInd order randSample s).2.2⟩)

lemma setLabels_cons (ls : Labels) (a : ℕ) (t : List ℕ) (v : Bool) :
    setLabels ls (a :: t) v = setLabels (ls.set a (some v)) t v := rfl

lemma setLabels_length (idxs : List ℕ) (ls : Labels) (v : Bool) :
    (setLabels ls idxs v).length = ls.length := by
  induction idxs generalizing ls with
  | nil => rfl
  | cons a t ih => rw [setLabels_cons, ih, List.length_set]

lemma getD_setLabels_not_mem {i : ℕ} {idxs : List ℕ} (ls : Labels) (v : Bool)
    (h : i ∉ idxs) : (setLabels ls idxs v).getD i none = ls.getD i none := by
  induction idxs generalizing ls with
  | nil => rfl
  | cons a t ih =>
      rw [setLabels_cons, ih (ls.set a (some v)) (fun hm => h (List.mem_cons_of_mem a hm))]
      have hne : a ≠ i := fun he => h (he ▸ List.mem_cons_self a t)
      simp [List.getElem?_set_ne hne]

lemma getD_setLabels_mem {i : ℕ} {idxs : List ℕ} (ls : Labels) (v : Bool)
    (h : i ∈ idxs) (hlt : i < ls.length) :
    (setLabels ls idxs v).getD i none = some v := by
  induction idxs generalizing ls with
  | nil => cases h
  | cons a t ih =>
      rw [setLabels_cons]
      by_cases hm : i ∈ t
      · exact ih (ls.set a (some v)) hm (by rw [List.length_set]; exact hlt)
      · have hai : a = i := by
          rcases List.mem_cons.mp h with he | hm'
          · exact he.symm
          · exact absurd hm' hm
        rw [getD_setLabels_not_mem _ _ hm, hai]
        simp [List.getElem?_set_self hlt]

lemma getD_setLabels_ne_none {i : ℕ} {idxs : List ℕ} (ls : Labels) (v : Bool)
    (h : ls.getD i none ≠ none) :
    (setLabels ls idxs v).getD i none ≠ none := by
  by_cases hm : i ∈ idxs
  · have hlt : i < ls.length := by
      by_contra hge
      exact h (by simp [List.getElem?_eq_none (Nat.le_of_not_lt hge)])
    rw [getD_setLabels_mem ls v hm hlt]
    exact Option.some_ne_none v
  · rw [getD_setLabels_not_mem ls v hm]
    exact h

lemma unlabeledIndices_nodup (labels : Labels) :
    (unlabeledIndices labels).Nodup :=
  (List.nodup_range _).filter _

lemma mem_unlabeledIndices {labels : Labels} {i : ℕ} :
    i ∈ unlabeledIndices labels ↔
      i < labels.length ∧ labels.getD i none = none := by
  simp [unlabeledIndices, List.mem_filter, List.mem_range]

/-- Whatever branch the sufficiency check takes, the drawn batch consists of
`M` pairwise-distinct unlabeled indices (given the NumPy guarantees on the
random draws). -/
lemma pickOf_sample_valid (minCount M : ℕ) (eps : ℚ) (H : ℕ → ℚ) (r : ℕ)
    (randInd order randSample : List ℕ) (s : PWState)
    (hM : M ≤ (unlabeledIndices s.labels).length)
    (hsnd : randSample.Nodup) (hslen : randSample.length = M)
    (hssub : ∀ x ∈ randSample, x ∈ unlabeledIndices s.labels)
    (hr : r ≤ M) (hrnd : randInd.Nodup) (hrlen : randInd.length = M)
    (hrsub : ∀ x ∈ randInd, x ∈ unlabeledIndices s.labels)
    (hord : order.Perm (List.range M)) :
    (pickOf minCount M eps H r randInd order randSample s).2.1.Nodup ∧
    (pickOf minCount M eps H r randInd order randSample s).2.1.length = M ∧
    (∀ x ∈ (pickOf minCount M eps H r randInd order randSample s).2.1,
      x ∈ unlabeledIndices s.labels) := by
  unfold pickOf
  by_cases hc : countLabel s.labels false < minCount
      ∨ countLabel s.labels true < minCount
  · rw [if_pos hc]
    exact ⟨hsnd, hslen, hssub⟩
  · rw [if_neg hc]
    have hspec := uncertSample_spec H (unlabeledIndices s.labels) M eps r
      randInd order (unlabeledIndices_nodup s.labels) hM hr hrnd hrlen
      hrsub hord
    exact ⟨hspec.2.1, hspec.1, hspec.2.2⟩

/-- The controller takes the RandomPick branch exactly when either class
has fewer than `min_count` labels (lines 125-128): the iteration result
carries `Branch.randomPick` iff `count(label==0) < min_count` or
`count(label==1) < min_count`. -/
theorem iterate_sufficiency_branch (minCount M : ℕ) (eps : ℚ) (H : ℕ → ℚ)
    (r : ℕ) (randInd order randSample : List ℕ) (groundtruth : ℕ → Bool)
    (s : PWState) (hM : ¬ (unlabeledIndices s.labels).length < M) :
    (∃ s', iterate minCount M eps H r randInd order randSample groundtruth s
        = some (Branch.randomPick, s')) ↔
      (countLabel s.labels false < minCount
        ∨ countLabel s.labels true < minCount) := by
  constructor
  · rintro ⟨s', hs'⟩
    unfold iterate at hs'
    rw [if_neg hM] at hs'
    have hbr := congrArg Prod.fst (Option.some.inj hs')
    by_contra hcond
    unfold pickOf at hbr
    rw [if_neg hcond] at hbr
    cases hbr
  · intro hcond
    refine ⟨⟨setLabels (setLabels s.labels randSample false)
        (randSample.filter groundtruth) true, s.sampleWeights⟩, ?_⟩
    unfold iterate
    rw [if_neg hM]
    unfold pickOf
    rw [if_pos hcond]

/-- The scenario state of the claim: 9 positive labels, 11 negative labels
and 16 unlabeled items. -/
def stateNineEleven : PWState :=
  ⟨List.replicate 9 (some true) ++ List.replicate 11 (some false)
      ++ List.replicate 16 none,
    List.replicate 36 1⟩

/-- Witness for `iterate_sufficiency_branch`: with `min_count = 10`,
9 positives and 11 negatives, the iteration takes the RandomPick branch. -/
theorem iterate_sufficiency_branch_witness :
    ¬ (unlabeledIndices stateNineEleven.labels).length < 16 ∧
    countLabel stateNineEleven.labels true = 9 ∧
    countLabel stateNineEleven.labels false = 11 ∧
    ((∃ s', iterate 10 16 0 (fun _ => 0) 0 [] [] (List.range 16)
        (fun _ => false) stateNineEleven = some (Branch.randomPick, s')) ↔
      (countLabel stateNineEleven.labels false < 10
        ∨ countLabel stateNineEleven.labels true < 10)) :=
  ⟨by decide, by decide, by decide,
    iterate_sufficiency_branch 10 16 0 (fun _ => 0) 0 [] [] (List.range 16)
      (fun _ => false) stateNineEleven (by decide)⟩

/-- Labels, once set, are never reverted: every successful iteration writes
only `0` or `1` into the label vector (lines 147-148), so any index labeled
before the iteration is still labeled after it. -/
theorem iterate_labels_monotone (minCount M : ℕ) (eps : ℚ) (H : ℕ → ℚ)
    (r : ℕ) (randInd order randSample : List ℕ) (groundtruth : ℕ → Bool)
    (s : PWState) (br : Branch) (s' : PWState)
    (h : iterate minCount M eps H r randInd order randSample groundtruth s
      = some (br, s'))
    (i : ℕ) (hl : s.labels.getD i none ≠ none) :
    s'.labels.getD i none ≠ none := by
  unfold iterate at h
  by_cases hM : (unlabeledIndices s.labels).length < M
  · rw [if_pos hM] at h
    cases h
  · rw [if_neg hM] at h
    have hs' := congrArg Prod.snd (Option.some.inj h)
    have hlab := congrArg PWState.labels hs'
    rw [← hlab]
    exact getD_setLabels_ne_none _ _ (getD_setLabels_ne_none _ _ hl)

/-- A 17-item state with item 0 already labeled positive. -/
def stateOneLabeled : PWState :=
  ⟨some true :: List.replicate 16 none, List.replicate 17 1⟩

/-- Witness for `iterate_labels_monotone`: after a concrete iteration over
`stateOneLabeled`, item 0 is still labeled. -/
theorem iterate_labels_monotone_witness :
    stateOneLabeled.labels.getD 0 none ≠ none ∧
    iterate 10 16 0 (fun _ => 0) 0 [] []
        [1, 2, 3, 4, 5, 6, 7, 8, 9, 10, 11, 12, 13, 14, 15, 16]
        (fun _ => false) stateOneLabeled
      = some (Branch.randomPick,
          ⟨some true :: List.replicate 16 (some false),
            List.replicate 17 1⟩) ∧
    ((⟨some true :: List.replicate 16 (some false),
        List.replicate 17 1⟩ : PWState).labels.getD 0 none ≠ none) :=
  ⟨by decide, by decide,
    iterate_labels_monotone 10 16 0 (fun _ => 0) 0 [] []
      [1, 2, 3, 4, 5, 6, 7, 8, 9, 10, 11, 12, 13, 14, 15, 16]
      (fun _ => false) stateOneLabeled Branch.randomPick
      ⟨some true :: List.replicate 16 (some false), List.replicate 17 1⟩
      (by decide) 0 (by decide)⟩

/-- An iteration fails at its very start (the `assert` on line 123) when
the unlabeled pool holds fewer than `M` items — the pure-function result
`none` carries no label-state mutation; and when the pool holds exactly `M`
items, the iteration succeeds and labels every remaining item, leaving the
unlabeled pool empty. -/
theorem iterate_pool_boundary (minCount M : ℕ) (eps : ℚ) (H : ℕ → ℚ)
    (r : ℕ) (randInd order randSample : List ℕ) (groundtruth : ℕ → Bool)
    (s : PWState) :
    ((unlabeledIndices s.labels).length < M →
      iterate minCount M eps H r randInd order randSample groundtruth s
        = none) ∧
    ((unlabeledIndices s.labels).length = M →
      randSample.Nodup → randSample.length = M →
      (∀ x ∈ randSample, x ∈ unlabeledIndices s.labels) →
      r ≤ M → randInd.Nodup → randInd.length = M →
      (∀ x ∈ randInd, x ∈ unlabeledIndices s.labels) →
      order.Perm (List.range M) →
      ∀ br s',
        iterate minCount M eps H r randInd order randSample groundtruth s
          = some (br, s') →
        unlabeledIndices s'.labels = []) := by
  constructor
  · intro hlt
    unfold iterate
    rw [if_pos hlt]
  · intro hlen hsnd hslen hssub hr hrnd hrlen hrsub hord br s' h
    have hM : ¬ (unlabeledIndices s.labels).length < M := by omega
    unfold iterate at h
    rw [if_neg hM] at h
    have hs' := congrArg Prod.snd (Option.some.inj h)
    have hlab := congrArg PWState.labels hs'
    have hvalid := pickOf_sample_valid minCount M eps H r randInd order
      randSample s (le_of_eq hlen.symm) hsnd hslen hssub hr hrnd hrlen
      hrsub hord
    set sample := (pickOf minCount M eps H r randInd order randSample s).2.1
      with hsampleDef
    have hperm : sample.Perm (unlabeledIndices s.labels) :=
      (List.subperm_of_subset hvalid.1 hvalid.2.2).perm_of_length_le
        (by rw [hvalid.2.1, hlen])
    have hcover : ∀ i ∈ unlabeledIndices s.labels, i ∈ sample :=
      fun i hi => hperm.mem_iff.mpr hi
    have hlen2 : s'.labels.length = s.labels.length := by
      rw [← hlab, setLabels_length, setLabels_length]
    unfold unlabeledIndices
    rw [hlen2, List.filter_eq_nil_iff]
    intro i hir
    have hilt : i < s.labels.length := List.mem_range.mp hir
    simp only [beq_iff_eq, Bool.not_eq_true]
    intro hnone
    by_cases hu : s.labels.getD i none = none
    · have hisample : i ∈ sample :=
        hcover i (mem_unlabeledIndices.mpr ⟨hilt, hu⟩)
      have h1 : (setLabels s.labels sample false).getD i none
          = some false := getD_setLabels_mem s.labels false hisample hilt
      have h2 := @getD_setLabels_ne_none i (sample.filter groundtruth)
        (setLabels s.labels sample false) true (by rw [h1]; simp)
      rw [← hlab] at hnone
      exact h2 hnone
    · have h2 := @getD_setLabels_ne_none i (sample.filter groundtruth)
        (setLabels s.labels sample false) true
        (getD_setLabels_ne_none s.labels false hu)
      rw [← hlab] at hnone
      exact h2 hnone

/-- A state with exactly 16 unlabeled items and nothing else. -/
def statePoolSixteen : PWState :=
  ⟨List.replicate 16 none, List.replicate 16 1⟩

/-- Witness for `iterate_pool_boundary`: with exactly `M = 16` unlabeled
items, a concrete iteration succeeds and empties the unlabeled pool. -/
theorem iterate_pool_boundary_witness :
    (unlabeledIndices statePoolSixteen.labels).length = 16 ∧
    iterate 10 16 0 (fun _ => 0) 0 (List.range 16) (List.range 16)
        (List.range 16) (fun _ => false) statePoolSixteen
      = some (Branch.randomPick,
          ⟨List.replicate 16 (some false), List.replicate 16 1⟩) ∧
    unlabeledIndices
        (⟨List.replicate 16 (some false),
          List.replicate 16 1⟩ : PWState).labels = [] :=
  ⟨by decide, by decide,
    (iterate_pool_boundary 10 16 0 (fun _ => 0) 0 (List.range 16)
        (List.range 16) (List.range 16) (fun _ => false)
        statePoolSixteen).2
      (by decide) (by decide) (by decide) (by decide) (by decide)
      (by decide) (by decide) (by decide) (List.Perm.refl _)
      Branch.randomPick
      ⟨List.replicate 16 (some false), List.replicate 16 1⟩
      (by decide)⟩

/-!
## Tabular dataset and subset selector (`_sample.py`)

A `DataFrame` keeps the protected columns `filepath`, `exclude`,
`validation` as fields of each row and the class columns (`label_types`,
i.e. all non-protected columns) as a parallel list of `Option Bool` cells
(`none` = missing, `some true` = 1, `some false` = 0).  The `viewpath`
protected column never participates in any computation and is omitted.
Specifier strings are `List Char` so that Python string operations
(`in`, `replace`, `strip`) can be modelled faithfully.
-/

/-- One row of the tabular label dataset. -/
structure DFRow where
  filepath : String
  exclude : Bool
  validation : Bool
  labels : List (Option Bool)
deriving DecidableEq

/-- The tabular label dataset: class-column names plus rows. -/
structure DataFrame where
  cols : List (List Char)
  rows : List DFRow
deriving DecidableEq

/-- Source: `pd.isnull(df[label_types]).values.prod(axis=1)`: a row is unlabeled
iff every class cell is missing (`find_unlabeled`, `_sample.py` 9-15). -/
def find_unlabeled (df : DataFrame) : List Bool :=
  df.rows.map (fun r => r.labels.all (fun v => v == none))

/-- Source: `pd.notnull(df[label_types]).values.prod(axis=1)`: a row is fully
labeled iff no class cell is missing (`find_fully_labeled`, 17-23). -/
def find_fully_labeled (df : DataFrame) : List Bool :=
  df.rows.map (fun r => r.labels.all (fun v => !(v == none)))

/-- Source: `(~find_unlabeled(df))&(~find_fully_labeled(df))`
(`find_partially_labeled`, 25-29). -/
def find_partly_labeled (df : DataFrame) : List Bool :=
  List.zipWith (fun a b => !a && !b) (find_unlabeled df) (find_fully_labeled df)

/-- Python `needle.isPrefixOf hay` on characters: does `needle` start
`hay`? -/
def isPre : List Char → List Char → Bool
  | [], _ => true
  | _ :: _, [] => false
  | a :: as, b :: bs => a == b && isPre as bs

/-- Python `needle in hay` (substring containment). -/
def hasSub (needle : List Char) : List Char → Bool
  | [] => isPre needle []
  | c :: t => isPre needle (c :: t) || hasSub needle t

/-- Python `s.replace(pat, "")` for nonempty `pat`: remove every
(left-to-right, non-overlapping) occurrence.  Written with explicit fuel so
that it is structurally recursive; each step consumes at least one
character, so `fuel = s.length` always suffices. -/
def removeAllFuel (pat : List Char) : ℕ → List Char → List Char
  | 0, s => s
  | _ + 1, [] => []
  | n + 1, c :: t =>
      if pat ≠ [] ∧ isPre pat (c :: t) = true then
        removeAllFuel pat n (List.drop (pat.length - 1) t)
      else c :: removeAllFuel pat n t

/-- Python `s.replace(pat, "")`. -/
def removeAll (pat s : List Char) : List Char :=
  removeAllFuel pat s.length s

/-- Python `s.strip()`: drop whitespace from both ends. -/
def stripChars (s : List Char) : List Char :=
  ((s.dropWhile Char.isWhitespace).reverse.dropWhile Char.isWhitespace).reverse

/-- The specifier string literals of `find_subset` (`_sample.py` 47-67). -/
def unlabeledStr : List Char := ['u', 'n', 'l', 'a', 'b', 'e', 'l', 'e', 'd']

def fullyLabeledStr : List Char :=
  ['f', 'u', 'l', 'l', 'y', ' ', 'l', 'a', 'b', 'e', 'l', 'e', 'd']

def partlyLabeledStr : List Char :=
  ['p', 'a', 'r', 't', 'i', 'a', 'l', 'l', 'y', ' ',
   'l', 'a', 'b', 'e', 'l', 'e', 'd']

def excludedStr : List Char := ['e', 'x', 'c', 'l', 'u', 'd', 'e', 'd']

def notExcludedStr : List Char :=
  ['n', 'o', 't', ' ', 'e', 'x', 'c', 'l', 'u', 'd', 'e', 'd']

def validationStr : List Char :=
  ['v', 'a', 'l', 'i', 'd', 'a', 't', 'i', 'o', 'n']

def unlabeledColonStr : List Char :=
  ['u', 'n', 'l', 'a', 'b', 'e', 'l', 'e', 'd', ':']

def containsStr : List Char := ['c', 'o', 'n', 't', 'a', 'i', 'n', 's']

def containsColonStr : List Char :=
  ['c', 'o', 'n', 't', 'a', 'i', 'n', 's', ':']

/-- The apostrophe character (code point 39). -/
def apoChar : Char := Char.ofNat 39

def doesntContainStr : List Char :=
  ['d', 'o', 'e', 's', 'n'] ++ [apoChar]
    ++ ['t', ' ', 'c', 'o', 'n', 't', 'a', 'i', 'n']

def doesntContainColonStr : List Char := doesntContainStr ++ [':']

/-- How `find_subset` can fail: the final `assert False` ("unsupported
subset expression") or a pandas missing-column `KeyError` from `df[s]`. -/
inductive SubsetErr
  | unsupported
  | missingColumn (c : List Char)
deriving DecidableEq

/-- Position of a class column name, first occurrence (pandas `df[c]`). -/
def colIdx (c : List Char) : List (List Char) → Option ℕ
  | [] => none
  | c0 :: rest => if c0 = c then some 0 else (colIdx c rest).map (· + 1)

/-- Source: `df[c]` for a class column: the column of cells, or a missing-column
error. -/
def getCol (df : DataFrame) (c : List Char) :
    Except SubsetErr (List (Option Bool)) :=
  match colIdx c df.cols with
  | some j => .ok (df.rows.map (fun r => r.labels.getD j none))
  | none => .error (.missingColumn c)

/-- Source: `find_subset` (`_sample.py` 32-69), with the exact dispatch order of the
code: five exact-string checks, then three Python substring checks
(`"unlabeled:" in s`, `"contains" in s`, the doesnt-contain substring in
followed by `s.replace(...).strip()` and a column access), then the exact
check for `"validation"`, and finally `assert False`.  `df[s] == 1` is true
exactly on cells equal to 1 (missing cells compare false), `df[s] == 0` on
cells equal to 0, `pd.isnull(df[s])` on missing cells. -/
def find_subset (df : DataFrame) (s : List Char) :
    Except SubsetErr (List Bool) :=
  if s = unlabeledStr then .ok (find_unlabeled df)
  else if s = fullyLabeledStr then .ok (find_fully_labeled df)
  else if s = partlyLabeledStr then .ok (find_partly_labeled df)
  else if s = excludedStr then .ok (df.rows.map (fun r => r.exclude))
  else if s = notExcludedStr then .ok (df.rows.map (fun r => !r.exclude))
  else if hasSub unlabeledColonStr s then
    (getCol df (stripChars (removeAll unlabeledColonStr s))).map
      (fun col => col.map (fun v => v == none))
  else if hasSub containsStr s then
    (getCol df (stripChars (removeAll containsColonStr s))).map
      (fun col => col.map (fun v => v == some true))
  else if hasSub doesntContainStr s then
    (getCol df (stripChars (removeAll doesntContainColonStr s))).map
      (fun col => col.map (fun v => v == some false))
  else if s = validationStr then .ok (df.rows.map (fun r => r.validation))
  else .error .unsupported

/-!
## Stratified sampler (`stratified_sample`, `_sample.py` 73-126)
-/

/-- Default row used for out-of-range index access in the model. -/
def dfDefaultRow : DFRow := ⟨"", false, false, []⟩

/-- The row at positional index `i`. -/
def rowAt (df : DataFrame) (i : ℕ) : DFRow := df.rows.getD i dfDefaultRow

/-- Source: `not_excluded = (df["exclude"] == False)&(df["validation"] == False)`
(line 87), per row. -/
def notExcludedRow (r : DFRow) : Bool := !r.exclude && !r.validation

/-- Source: `index[(df[l] == z)&not_excluded]` (lines 97, 101): the eligible row
indices of class column `j` with polarity `b`. -/
def eligibleIdx (df : DataFrame) (j : ℕ) (b : Bool) : List ℕ :=
  (List.range df.rows.length).filter
    (fun i => ((rowAt df i).labels.getD j none == some b)
      && notExcludedRow (rowAt df i))

/-- Source: `file_lists[z]` (lines 96-103): one index list per class column that
has at least one eligible example of polarity `b`. -/
def fileLists (df : DataFrame) (b : Bool) : List (List ℕ) :=
  (List.range df.cols.length).filterMap
    (fun j => if eligibleIdx df j b ≠ [] then some (eligibleIdx df j b)
      else none)

/-- Source: `y_vector` (lines 119-121): the class labels of a row as integers with
missing entries mapped to `-1`. -/
def yVector (r : DFRow) : List Int :=
  r.labels.map (fun v =>
    match v with
    | none => -1
    | some true => 1
    | some false => 0)

/-- One loop body of `stratified_sample` (lines 109-121) for the random
choices `z` (polarity), `i` (class-list position) and `k` (position inside
the class list): `none` models the `np.random.choice` failure on an
empty/absent list. -/
def drawOne (df : DataFrame) (z : Bool) (i k : ℕ) :
    Option (String × List Int) :=
  match (fileLists df z)[i]? with
  | none => none
  | some lst =>
      match lst[k]? with
      | none => none
      | some ind => some ((rowAt df ind).filepath, yVector (rowAt df ind))

/-- Source: `stratified_sample` (lines 73-126) with its `N` random draws passed in
explicitly; returns the list of (filepath, label-vector) pairs. -/
def stratified_sample (df : DataFrame) :
    List (Bool × ℕ × ℕ) → Option (List (String × List Int))
  | [] => some []
  | d :: rest =>
      match drawOne df d.1 d.2.1 d.2.2, stratified_sample df rest with
      | some e, some es => some (e :: es)
      | _, _ => none

instance {ε α : Type} [DecidableEq ε] [DecidableEq α] :
    DecidableEq (Except ε α) := fun x y =>
  match x, y with
  | .error e, .error e' =>
      if h : e = e' then .isTrue (by rw [h])
      else .isFalse (fun he => h (Except.error.inj he))
  | .ok a, .ok a' =>
      if h : a = a' then .isTrue (by rw [h])
      else .isFalse (fun he => h (Except.ok.inj he))
  | .error _, .ok _ => .isFalse (fun he => Except.noConfusion he)
  | .ok _, .error _ => .isFalse (fun he => Except.noConfusion he)

lemma yVector_getD (r : DFRow) (k : ℕ) (hk : k < r.labels.length) :
    (r.labels.getD k none = none → (yVector r).getD k 0 = -1) ∧
    (∀ b, r.labels.getD k none = some b →
      (yVector r).getD k 0 = (if b then 1 else 0)) := by
  have hk' : k < (yVector r).length := by
    simpa [yVector] using hk
  have hygd : (yVector r).getD k 0 = (yVector r)[k] := by
    rw [List.getD_eq_getElem?_getD, List.getElem?_eq_getElem hk']
    rfl
  have hlgd : r.labels.getD k none = r.labels[k] := by
    rw [List.getD_eq_getElem?_getD, List.getElem?_eq_getElem hk]
    rfl
  have hmap : (yVector r)[k] =
      (match r.labels[k] with
        | none => (-1 : Int)
        | some true => 1
        | some false => 0) := by
    simp [yVector]
  constructor
  · intro hnone
    rw [hlgd] at hnone
    rw [hygd, hmap, hnone]
  · intro b hb
    rw [hlgd] at hb
    rw [hygd, hmap, hb]
    cases b <;> rfl

/-- Every entry emitted by the stratified sampler refers to a row with
`exclude == False` and `validation == False`, and its label vector is that
class labels of that row with every missing cell mapped to `-1` (a labeled cell
keeps its 0/1 value). -/
theorem stratified_sample_eligible (df : DataFrame)
    (draws : List (Bool × ℕ × ℕ)) (out : List (String × List Int))
    (h : stratified_sample df draws = some out) :
    ∀ e ∈ out, ∃ ind, ind < df.rows.length ∧
      (rowAt df ind).exclude = false ∧
      (rowAt df ind).validation = false ∧
      e.1 = (rowAt df ind).filepath ∧
      e.2 = yVector (rowAt df ind) ∧
      ∀ k, k < (rowAt df ind).labels.length →
        ((rowAt df ind).labels.getD k none = none → e.2.getD k 0 = -1) ∧
        (∀ b, (rowAt df ind).labels.getD k none = some b →
          e.2.getD k 0 = (if b then 1 else 0)) := by
  induction draws generalizing out with
  | nil =>
      have hout : out = [] := (Option.some.inj h).symm
      subst hout
      intro e he
      cases he
  | cons d rest ih =>
      unfold stratified_sample at h
      cases hd : drawOne df d.1 d.2.1 d.2.2 with
      | none => rw [hd] at h; cases h
      | some e0 =>
          cases hr : stratified_sample df rest with
          | none => rw [hd, hr] at h; cases h
          | some es =>
              rw [hd, hr] at h
              have hout : out = e0 :: es := (Option.some.inj h).symm
              subst hout
              intro e he
              rcases List.mem_cons.mp he with heq | hmem
              · subst heq
                unfold drawOne at hd
                cases hfl : (fileLists df d.1)[d.2.1]? with
                | none => exact Option.noConfusion (hfl ▸ hd)
                | some lst =>
                    rw [hfl] at hd
                    replace hd : (match lst[d.2.2]? with
                      | none => none
                      | some ind =>
                          some ((rowAt df ind).filepath,
                            yVector (rowAt df ind))) = some e := hd
                    cases hk : lst[d.2.2]? with
                    | none => exact Option.noConfusion (hk ▸ hd)
                    | some ind =>
                        rw [hk] at hd
                        have he0 := (Option.some.inj hd).symm
                        have hlstmem : lst ∈ fileLists df d.1 :=
                          List.getElem?_mem hfl
                        have hindmem : ind ∈ lst := List.getElem?_mem hk
                        obtain ⟨j, _, hj⟩ := List.mem_filterMap.mp hlstmem
                        have hlst : lst = eligibleIdx df j d.1 := by
                          by_cases hne : eligibleIdx df j d.1 ≠ []
                          · rw [if_pos hne] at hj
                            exact (Option.some.inj hj).symm
                          · rw [if_neg hne] at hj
                            cases hj
                        rw [hlst] at hindmem
                        have hfilt := List.mem_filter.mp hindmem
                        have hlt : ind < df.rows.length :=
                          List.mem_range.mp hfilt.1
                        have hpred := hfilt.2
                        rw [Bool.and_eq_true] at hpred
                        have hnx := hpred.2
                        rw [notExcludedRow, Bool.and_eq_true,
                          Bool.not_eq_true', Bool.not_eq_true'] at hnx
                        refine ⟨ind, hlt, hnx.1, hnx.2, ?_, ?_, ?_⟩
                        · rw [he0]
                        · rw [he0]
                        · intro k hkl
                          have := yVector_getD (rowAt df ind) k hkl
                          rw [he0]
                          exact this
              · exact ih es hr e hmem

/-- A small concrete dataset: one class column `A`; row 0 is positive but
excluded, row 1 positive, row 2 negative, row 3 unlabeled. -/
def dfExample : DataFrame :=
  ⟨[['A']],
    [⟨"p0", true, false, [some true]⟩,
     ⟨"p1", false, false, [some true]⟩,
     ⟨"p2", false, false, [some false]⟩,
     ⟨"p3", false, false, [none]⟩]⟩

/-- Witness for `stratified_sample_eligible`: one concrete draw returns the
non-excluded positive row `p1` with label vector `[1]`. -/
theorem stratified_sample_eligible_witness :
    stratified_sample dfExample [(true, 0, 0)] = some [("p1", [1])] ∧
    ∀ e ∈ ([(("p1" : String), ([1] : List Int))] :
        List (String × List Int)), ∃ ind, ind < dfExample.rows.length ∧
      (rowAt dfExample ind).exclude = false ∧
      (rowAt dfExample ind).validation = false ∧
      e.1 = (rowAt dfExample ind).filepath ∧
      e.2 = yVector (rowAt dfExample ind) ∧
      ∀ k, k < (rowAt dfExample ind).labels.length →
        ((rowAt dfExample ind).labels.getD k none = none →
          e.2.getD k 0 = -1) ∧
        (∀ b, (rowAt dfExample ind).labels.getD k none = some b →
          e.2.getD k 0 = (if b then 1 else 0)) :=
  ⟨by decide,
    stratified_sample_eligible dfExample [(true, 0, 0)] [("p1", [1])]
      (by decide)⟩

/-!
## Subset-selector dispatch (claims about `find_subset`)
-/

lemma hasSub_of_isPre {needle s : List Char} (h : isPre needle s = true) :
    hasSub needle s = true := by
  cases s with
  | nil => simpa [hasSub] using h
  | cons c t => simp [hasSub, h]

lemma isPre_append_self (l t : List Char) : isPre l (l ++ t) = true := by
  induction l with
  | nil => rfl
  | cons a as ih => simp [isPre, ih]

lemma append_ne_of_head_ne {a b : Char} {as bs t : List Char}
    (h : (a == b) = false) : (a :: as) ++ t ≠ b :: bs := by
  intro hcontra
  rw [List.cons_append] at hcontra
  injection hcontra with h1 _
  rw [h1] at h
  simp at h

/-- Amended dispatch property: a specifier that matches none of the exact
forms AND contains none of the substrings `"unlabeled:"`, `"contains"`,
the doesnt-contain form falls through every branch of `find_subset` and fails
with the unsupported-subset-expression error.  (Strings containing one of
those substrings are routed to the per-class branches instead, where an
unknown column name raises a missing-column error — see the
counterexample.) -/
theorem find_subset_unsupported (df : DataFrame) (s : List Char)
    (h1 : s ≠ unlabeledStr) (h2 : s ≠ fullyLabeledStr)
    (h3 : s ≠ partlyLabeledStr) (h4 : s ≠ excludedStr)
    (h5 : s ≠ notExcludedStr)
    (h6 : hasSub unlabeledColonStr s = false)
    (h7 : hasSub containsStr s = false)
    (h8 : hasSub doesntContainStr s = false)
    (h9 : s ≠ validationStr) :
    find_subset df s = .error .unsupported := by
  unfold find_subset
  rw [if_neg h1, if_neg h2, if_neg h3, if_neg h4, if_neg h5,
    if_neg (by simp [h6]), if_neg (by simp [h7]), if_neg (by simp [h8]),
    if_neg h9]

/-- A specifier matching no recognized form at all. -/
def bogusStr : List Char := ['b', 'o', 'g', 'u', 's']

/-- Witness for `find_subset_unsupported` at the specifier `"bogus"`. -/
theorem find_subset_unsupported_witness :
    (bogusStr ≠ unlabeledStr ∧ bogusStr ≠ fullyLabeledStr ∧
     bogusStr ≠ partlyLabeledStr ∧ bogusStr ≠ excludedStr ∧
     bogusStr ≠ notExcludedStr ∧
     hasSub unlabeledColonStr bogusStr = false ∧
     hasSub containsStr bogusStr = false ∧
     hasSub doesntContainStr bogusStr = false ∧
     bogusStr ≠ validationStr) ∧
    find_subset dfExample bogusStr = .error .unsupported :=
  ⟨by decide,
    find_subset_unsupported dfExample bogusStr (by decide) (by decide)
      (by decide) (by decide) (by decide) (by decide) (by decide)
      (by decide) (by decide)⟩

/-- The unrecognized specifier `"contains nothing"`. -/
def containsNothingStr : List Char :=
  ['c', 'o', 'n', 't', 'a', 'i', 'n', 's', ' ',
   'n', 'o', 't', 'h', 'i', 'n', 'g']

/-- Counterexample to the claim as stated: the unrecognized specifier
`"contains nothing"` is not of any recognized form, yet `find_subset` does
NOT fail with the unsupported-subset-expression error — the Python
substring test `"contains" in s` routes it to the per-class branch, whose
column lookup fails with a missing-column `KeyError` instead. -/
theorem find_subset_unsupported_counterexample :
    find_subset dfExample containsNothingStr
      = Except.error (SubsetErr.missingColumn containsNothingStr) ∧
    find_subset dfExample containsNothingStr
      ≠ Except.error SubsetErr.unsupported := by
  constructor
  · decide
  · decide

lemma colIdx_spec {c : List Char} {cols : List (List Char)} (h : c ∈ cols) :
    ∃ j, colIdx c cols = some j ∧ j < cols.length ∧ cols.getD j [] = c := by
  induction cols with
  | nil => cases h
  | cons c0 rest ih =>
      by_cases he : c0 = c
      · refine ⟨0, ?_, Nat.succ_pos _, ?_⟩
        · simp [colIdx, he]
        · simpa using he
      · have hm : c ∈ rest := by
          rcases List.mem_cons.mp h with h' | h'
          · exact absurd h'.symm he
          · exact h'
        obtain ⟨j, hj, hjl, hjg⟩ := ih hm
        refine ⟨j + 1, ?_, Nat.succ_lt_succ hjl, ?_⟩
        · simp [colIdx, he, hj]
        · simpa using hjg

lemma getD_map_of_lt {α β : Type} (l : List α) (f : α → β) (d : β) (i : ℕ)
    (hi : i < l.length) : (l.map f).getD i d = f l[i] := by
  have hi' : i < (l.map f).length := by simpa using hi
  rw [List.getD_eq_getElem?_getD, List.getElem?_eq_getElem hi']
  simp

lemma getD_map_of_ge {α β : Type} (l : List α) (f : α → β) (d : β) (i : ℕ)
    (hi : l.length ≤ i) : (l.map f).getD i d = d := by
  rw [List.getD_eq_getElem?_getD, List.getElem?_eq_none (by simpa using hi)]
  rfl

/-- Round-trip property of the per-class masks: the masks produced by the
subset selector for the contains and doesnt-contain forms of a column `A` are disjoint,
and every row whose `A` cell is not missing — whether or not the other
class columns are labeled — is covered by their union; in particular every
fully-labeled row lies in the union intersected with the fully-labeled
mask.  Being labeled on `A` is expressed through the column `colA` that the
column accessor `df[A]` (`getCol`) returns.  The side conditions pin down
the Python string routing for the concatenated specifier strings: `A` must
not smuggle in the substring of another branch, and
`s.replace(pattern, "").strip()` must recover `A` exactly. -/
theorem contains_masks_partition (df : DataFrame) (A : List Char)
    (hwf : ∀ row ∈ df.rows, row.labels.length = df.cols.length)
    (hA : A ∈ df.cols)
    (hn1 : hasSub unlabeledColonStr (containsColonStr ++ A) = false)
    (hr1 : stripChars (removeAll containsColonStr (containsColonStr ++ A))
      = A)
    (hn2 : hasSub unlabeledColonStr (doesntContainColonStr ++ A) = false)
    (hn3 : hasSub containsStr (doesntContainColonStr ++ A) = false)
    (hr2 : stripChars
      (removeAll doesntContainColonStr (doesntContainColonStr ++ A)) = A)
    (mc md : List Bool) (colA : List (Option Bool))
    (h1 : find_subset df (containsColonStr ++ A) = .ok mc)
    (h2 : find_subset df (doesntContainColonStr ++ A) = .ok md)
    (hcolA : getCol df A = .ok colA) :
    (∀ i, ¬ (mc.getD i false = true ∧ md.getD i false = true)) ∧
    (∀ i, i < df.rows.length → colA.getD i none ≠ none →
      (mc.getD i false = true ∨ md.getD i false = true)) ∧
    (∀ i, i < df.rows.length →
      (find_fully_labeled df).getD i false = true →
      ((mc.getD i false = true ∨ md.getD i false = true) ∧
        (find_fully_labeled df).getD i false = true)) := by
  obtain ⟨j, hcj, hjl, hgj⟩ := colIdx_spec hA
  have hgc : getCol df A
      = .ok (df.rows.map (fun r => r.labels.getD j none)) := by
    unfold getCol
    rw [hcj]
  -- routing of "contains:A"
  have hmc : mc = df.rows.map
      (fun r => (r.labels.getD j none == some true)) := by
    have hne1 : containsColonStr ++ A ≠ unlabeledStr :=
      append_ne_of_head_ne (by decide)
    have hne2 : containsColonStr ++ A ≠ fullyLabeledStr :=
      append_ne_of_head_ne (by decide)
    have hne3 : containsColonStr ++ A ≠ partlyLabeledStr :=
      append_ne_of_head_ne (by decide)
    have hne4 : containsColonStr ++ A ≠ excludedStr :=
      append_ne_of_head_ne (by decide)
    have hne5 : containsColonStr ++ A ≠ notExcludedStr :=
      append_ne_of_head_ne (by decide)
    unfold find_subset at h1
    rw [if_neg hne1, if_neg hne2, if_neg hne3, if_neg hne4, if_neg hne5,
      if_neg (by simp [hn1])] at h1
    have hsub1 : hasSub containsStr (containsColonStr ++ A) = true := by
      apply hasSub_of_isPre
      have heq : containsColonStr ++ A = containsStr ++ ([':'] ++ A) := by
        rw [show containsColonStr = containsStr ++ [':'] from rfl,
          List.append_assoc]
      rw [heq]
      exact isPre_append_self _ _
    rw [if_pos (by simp [hsub1]), hr1, hgc] at h1
    replace h1 : Except.ok ((df.rows.map
        (fun r => r.labels.getD j none)).map
          (fun v => v == some true)) = Except.ok mc := h1
    rw [List.map_map] at h1
    exact (Except.ok.inj h1).symm
  -- routing of the doesnt-contain specifier
  have hmd : md = df.rows.map
      (fun r => (r.labels.getD j none == some false)) := by
    have hne1 : doesntContainColonStr ++ A ≠ unlabeledStr :=
      append_ne_of_head_ne (by decide)
    have hne2 : doesntContainColonStr ++ A ≠ fullyLabeledStr :=
      append_ne_of_head_ne (by decide)
    have hne3 : doesntContainColonStr ++ A ≠ partlyLabeledStr :=
      append_ne_of_head_ne (by decide)
    have hne4 : doesntContainColonStr ++ A ≠ excludedStr :=
      append_ne_of_head_ne (by decide)
    have hne5 : doesntContainColonStr ++ A ≠ notExcludedStr :=
      append_ne_of_head_ne (by decide)
    unfold find_subset at h2
    rw [if_neg hne1, if_neg hne2, if_neg hne3, if_neg hne4, if_neg hne5,
      if_neg (by simp [hn2]), if_neg (by simp [hn3])] at h2
    have hsub2 : hasSub doesntContainStr (doesntContainColonStr ++ A)
        = true := by
      apply hasSub_of_isPre
      have heq : doesntContainColonStr ++ A
          = doesntContainStr ++ ([':'] ++ A) := by
        rw [show doesntContainColonStr = doesntContainStr ++ [':'] from rfl,
          List.append_assoc]
      rw [heq]
      exact isPre_append_self _ _
    rw [if_pos (by simp [hsub2]), hr2, hgc] at h2
    replace h2 : Except.ok ((df.rows.map
        (fun r => r.labels.getD j none)).map
          (fun v => v == some false)) = Except.ok md := h2
    rw [List.map_map] at h2
    exact (Except.ok.inj h2).symm
  have hcol : colA = df.rows.map (fun r => r.labels.getD j none) := by
    rw [hgc] at hcolA
    exact (Except.ok.inj hcolA).symm
  have hcov : ∀ i, i < df.rows.length → colA.getD i none ≠ none →
      (mc.getD i false = true ∨ md.getD i false = true) := by
    intro i hi hcell
    rw [hcol, getD_map_of_lt _ _ _ _ hi] at hcell
    cases hcv : (df.rows[i]).labels.getD j none with
    | none => exact absurd hcv hcell
    | some b =>
        cases b with
        | true =>
            left
            rw [hmc, getD_map_of_lt _ _ _ _ hi, hcv]
            rfl
        | false =>
            right
            rw [hmd, getD_map_of_lt _ _ _ _ hi, hcv]
            rfl
  refine ⟨?_, hcov, ?_⟩
  · intro i hboth
    by_cases hi : i < df.rows.length
    · rw [hmc, getD_map_of_lt _ _ _ _ hi, beq_iff_eq] at hboth
      have hci := hboth.1
      rw [hmd, getD_map_of_lt _ _ _ _ hi, beq_iff_eq] at hboth
      have hdi := hboth.2
      rw [hci] at hdi
      cases hdi
    · rw [hmc, getD_map_of_ge _ _ _ _ (Nat.le_of_not_lt hi)] at hboth
      exact Bool.false_ne_true hboth.1
  · intro i hi hful
    refine ⟨hcov i hi ?_, hful⟩
    rw [find_fully_labeled, getD_map_of_lt _ _ _ _ hi] at hful
    have hjlab : j < (df.rows[i]).labels.length := by
      rw [hwf df.rows[i] (df.rows.getElem_mem _)]
      exact hjl
    have hcell : (df.rows[i]).labels.getD j none
        = (df.rows[i]).labels[j] := by
      rw [List.getD_eq_getElem?_getD, List.getElem?_eq_getElem hjlab]
      rfl
    have hmem : (df.rows[i]).labels[j] ∈ (df.rows[i]).labels :=
      List.getElem_mem _
    have hcell_ne : ¬ ((df.rows[i]).labels[j] == none) = true := by
      have := List.all_eq_true.mp hful _ hmem
      simp only [Bool.not_eq_true'] at this
      rw [this]
      exact Bool.false_ne_true
    rw [beq_iff_eq] at hcell_ne
    rw [hcol, getD_map_of_lt _ _ _ _ hi, hcell]
    exact hcell_ne

/-- A two-column dataset for the round-trip witness: rows `q0`, `q1` are
fully labeled, row `q2` is missing column `A`, and row `q3` is labeled on
column `A` but missing column `B` (so it is covered by the union of the
two masks although it is not fully labeled). -/
def dfExampleTwo : DataFrame :=
  ⟨[['A'], ['B']],
    [⟨"q0", false, false, [some true, some false]⟩,
     ⟨"q1", false, false, [some false, some true]⟩,
     ⟨"q2", false, false, [none, some true]⟩,
     ⟨"q3", false, false, [some false, none]⟩]⟩

/-- Witness for `contains_masks_partition` at a concrete dataset and
column `A`; the column of `A` cells is `[1, 0, missing, 0]`, so the
partially-labeled row `q3` is covered by the union of the two masks. -/
theorem contains_masks_partition_witness :
    (∀ row ∈ dfExampleTwo.rows,
      row.labels.length = dfExampleTwo.cols.length) ∧
    (['A'] : List Char) ∈ dfExampleTwo.cols ∧
    find_subset dfExampleTwo (containsColonStr ++ ['A'])
      = .ok [true, false, false, false] ∧
    find_subset dfExampleTwo (doesntContainColonStr ++ ['A'])
      = .ok [false, true, false, true] ∧
    getCol dfExampleTwo ['A'] = .ok [some true, some false, none, some false] ∧
    ((∀ i, ¬ (([true, false, false, false] : List Bool).getD i false = true ∧
        ([false, true, false, true] : List Bool).getD i false = true)) ∧
     (∀ i, i < dfExampleTwo.rows.length →
        ([some true, some false, none, some false] :
            List (Option Bool)).getD i none ≠ none →
        (([true, false, false, false] : List Bool).getD i false = true ∨
          ([false, true, false, true] : List Bool).getD i false = true)) ∧
     (∀ i, i < dfExampleTwo.rows.length →
        (find_fully_labeled dfExampleTwo).getD i false = true →
        ((([true, false, false, false] : List Bool).getD i false = true ∨
            ([false, true, false, true] : List Bool).getD i false = true) ∧
          (find_fully_labeled dfExampleTwo).getD i false = true))) :=
  ⟨by decide, by decide, by decide, by decide, by decide,
    contains_masks_partition dfExampleTwo ['A'] (by decide) (by decide)
      (by decide) (by decide) (by decide) (by decide) (by decide)
      [true, false, false, false] [false, true, false, true]
      [some true, some false, none, some false]
      (by decide) (by decide) (by decide)⟩

end Patchwork
